import Mathlib

/-!
Verification of the calcatime core (src/calcatime.py) against its
natural-language specification.

The development shallowly embeds the two core components:

* the relative timespan resolver `parse_timerange_tokens`, and
* the event grouping engine (`group_events`, `group_by_title`,
  `group_by_category`, `group_by_pattern`) together with the event
  construction performed by the calendar collectors.

Datetimes produced by the resolver always sit at local midnight, so a
datetime is modelled by its proleptic-Gregorian ordinal day number (the
value of Python's `date.toordinal`); `timedelta(days = k)` becomes
integer addition.  Python's `datetime(year, month, day)` constructor is
fallible (it raises `ValueError` unless `1 <= year <= 9999`,
`1 <= month <= 12` and the day is in range), so the embedded resolver
returns an `Except` value, with one error constructor per Python
exception that the source can raise.
-/

namespace Calcatime

/-- Python exceptions raised by the embedded code: `ValueError` (invalid
`datetime` arguments or tuple-unpacking arity mismatch),
`NotImplementedError`, and the generic `Exception('Can not determine time
span.')` raised when no timespan token is recognized. -/
inductive PyError where
  | valueError : PyError
  | notImplementedError : PyError
  | unresolvedTimespan : PyError
deriving DecidableEq, Repr

instance {ε α : Type} [DecidableEq ε] [DecidableEq α] :
    DecidableEq (Except ε α) := fun a b =>
  match a, b with
  | .ok x, .ok y => decidable_of_iff (x = y) (by simp)
  | .error x, .error y => decidable_of_iff (x = y) (by simp)
  | .ok _, .error _ => .isFalse (by simp)
  | .error _, .ok _ => .isFalse (by simp)

/-- Gregorian leap-year test, as in Python's `calendar.isleap`. -/
def isLeap (y : Int) : Bool :=
  (y % 4 == 0 && y % 100 != 0) || y % 400 == 0

/-- Number of days in a month of the Gregorian calendar. -/
def daysInMonth (y m : Int) : Int :=
  if m = 2 then (if isLeap y then 29 else 28)
  else if m = 4 ∨ m = 6 ∨ m = 9 ∨ m = 11 then 30
  else 31

/-- Days in year `y` that precede month `m` (for `1 ≤ m ≤ 13`). -/
def daysBeforeMonth (y m : Int) : Int :=
  (if 2 ≤ m then 31 else 0) +
  (if 3 ≤ m then (if isLeap y then 29 else 28) else 0) +
  (if 4 ≤ m then 31 else 0) +
  (if 5 ≤ m then 30 else 0) +
  (if 6 ≤ m then 31 else 0) +
  (if 7 ≤ m then 30 else 0) +
  (if 8 ≤ m then 31 else 0) +
  (if 9 ≤ m then 31 else 0) +
  (if 10 ≤ m then 30 else 0) +
  (if 11 ≤ m then 31 else 0) +
  (if 12 ≤ m then 30 else 0) +
  (if 13 ≤ m then 31 else 0)

/-- Number of leap years strictly before year `y` (counting from year 1). -/
def leapsBefore (y : Int) : Int :=
  (y - 1) / 4 - (y - 1) / 100 + (y - 1) / 400

/-- Proleptic-Gregorian ordinal of a date, matching Python's
`date(y, m, d).toordinal()`; day 1 is 0001-01-01. -/
def toDays (y m d : Int) : Int :=
  365 * (y - 1) + leapsBefore y + daysBeforeMonth y m + d

/-- Weekday of an ordinal day number, Monday = 0 … Sunday = 6, matching
Python's `datetime.weekday()` (0001-01-01 was a Monday). -/
def weekday (n : Int) : Int :=
  (n - 1) % 7

/-- Validity of the arguments of Python's `datetime(y, m, d)`
constructor (`MINYEAR = 1`, `MAXYEAR = 9999`). -/
def validYMD (y m d : Int) : Bool :=
  1 ≤ y && y ≤ 9999 && 1 ≤ m && m ≤ 12 && 1 ≤ d && d ≤ daysInMonth y m

/-- Python's `datetime(y, m, d)` at midnight: the ordinal day number on
valid arguments, `ValueError` otherwise. -/
def datetime_ctor (y m d : Int) : Except PyError Int :=
  if validYMD y m d then .ok (toDays y m d) else .error .valueError

/-- The local calendar date of the anchor instant `datetime.today()`. -/
structure Date where
  year : Int
  month : Int
  day : Int
deriving DecidableEq, Repr

/-- The anchor produced by `datetime.today()` is always a valid date. -/
def validAnchor (t : Date) : Prop :=
  validYMD t.year t.month t.day = true

instance (t : Date) : Decidable (validAnchor t) := by
  unfold validAnchor; infer_instance

/-- The month-index wrap in the `month` branch:
`month_index = month_index if month_index >= 1 else 12`. -/
def wrap_month_index (mi : Int) : Int :=
  if 1 ≤ mi then mi else 12

/-- `zip(calendar.day_name, calendar.day_abbr)` lowercased: the pairs of
full English weekday names and their three-letter abbreviations, Monday
first. -/
def weekdayPairs : List (String × String) :=
  [("monday", "mon"), ("tuesday", "tue"), ("wednesday", "wed"),
   ("thursday", "thu"), ("friday", "fri"), ("saturday", "sat"),
   ("sunday", "sun")]

/-- The `'month' in timespan_tokens` branch: wrap the shifted month
index, then build `month_start = datetime(year, m, 1)` and
`month_end = datetime(year, m+1, 1) + timedelta(-1)` (each constructor
may raise `ValueError`). -/
def month_branch (t : Date) (delta : Int) : Except PyError (Int × Int) :=
  let month_index := wrap_month_index (t.month + delta)
  do
    let month_start ← datetime_ctor t.year month_index 1
    let month_end_next ← datetime_ctor t.year (month_index + 1) 1
    return (month_start, month_end_next + (-1))

/-- The `'year' in timespan_tokens` branch: `year_start =
datetime(y, 1, 1)`, `year_end = datetime(y+1, 1, 1) + timedelta(-1)`. -/
def year_branch (t : Date) (delta : Int) : Except PyError (Int × Int) :=
  let year_number := t.year + delta
  do
    let year_start ← datetime_ctor year_number 1 1
    let year_end_next ← datetime_ctor (year_number + 1) 1 1
    return (year_start, year_end_next + (-1))

/-- The trailing weekday loop: index of the first pair of
(full name, abbreviation) with a member among the tokens. -/
def findWeekdayAux (tokens : List String) :
    List (String × String) → Option Nat
  | [] => none
  | p :: ps =>
      if tokens.contains p.1 || tokens.contains p.2 then some 0
      else (findWeekdayAux tokens ps).map (· + 1)

/-- Index (Monday = 0) of the first weekday name or abbreviation
occurring in the tokens, if any. -/
def find_weekday_index (tokens : List String) : Option Nat :=
  findWeekdayAux tokens weekdayPairs

/-- Shallow embedding of `parse_timerange_tokens` (src/calcatime.py,
lines 237-303).  The anchor date is passed explicitly instead of being
read from `datetime.today()`; both returned datetimes are ordinal day
numbers at midnight. -/
def parse_timerange_tokens (today : Date) (tokens : List String) :
    Except PyError (Int × Int) :=
  let today_start := toDays today.year today.month today.day
  let today_end := today_start + 1
  let week_start := today_start - weekday today_start
  let last_count : Int := tokens.count "last"
  let next_count : Int := tokens.count "next"
  let offset := -7 * last_count + 7 * next_count
  if tokens.contains "today" then
    .ok (today_start + offset, today_end + offset)
  else if tokens.contains "yesterday" then
    .ok (today_start + (-1 + offset), today_end + (-1 + offset))
  else if tokens.contains "week" then
    .ok (week_start + offset, week_start + (7 + offset))
  else if tokens.contains "month" then
    month_branch today (-last_count + next_count)
  else if tokens.contains "year" then
    year_branch today (-last_count + next_count)
  else if tokens.contains "decade" then .error .notImplementedError
  else if tokens.contains "century" then .error .notImplementedError
  else if tokens.contains "millennium" then .error .notImplementedError
  else
    match find_weekday_index tokens with
    | some idx =>
        .ok (week_start + ((idx : Int) + offset),
             week_start + ((idx : Int) + 1 + offset))
    | none => .error .unresolvedTimespan

/-- The `CalendarEvent` namedtuple.  `start` and `end_` (Python `end`)
are instants in seconds; `duration` is the float stored by the
collectors, modelled as a rational. -/
structure CalendarEvent where
  title : String
  start : Int
  end_ : Int
  duration : ℚ
  categories : List String
deriving DecidableEq, Repr

/-- The `.seconds` attribute of a Python `timedelta` of `total` seconds:
timedeltas are normalized with floored division, so `.seconds` is
`total mod 86400`, discarding whole days. -/
def timedelta_seconds (total : Int) : Int :=
  total % 86400

/-- The duration expression used by both collectors
(`(end - start).seconds / 3600`, src/calcatime.py lines 372 and 457). -/
def py_duration_hours (startSec endSec : Int) : ℚ :=
  (timedelta_seconds (endSec - startSec) : ℚ) / 3600

/-- The `CalendarEvent` constructed by `get_exchange_events` for one
calendar item (src/calcatime.py lines 367-374); `get_google_events`
(lines 452-459) builds its events with the same duration expression. -/
def exchange_event (title : String) (startSec endSec : Int)
    (cats : List String) : CalendarEvent :=
  { title := title
    start := startSec
    end_ := endSec
    duration := py_duration_hours startSec endSec
    categories := cats }

/-- A Python dict from group key to event list, with insertion order:
an association list whose keys are unique by construction. -/
abbrev Groups := List (String × List CalendarEvent)

/-- `grouped_events[key].append(event)` if `key` is present, else
`grouped_events[key] = [event]` (new key appended at the end, matching
dict insertion order). -/
def addToGroup (gs : Groups) (key : String) (e : CalendarEvent) : Groups :=
  match gs with
  | [] => [(key, [e])]
  | (k, es) :: rest =>
      if k = key then (k, es ++ [e]) :: rest
      else (k, es) :: addToGroup rest key e

/-- Event `e` is a member of the group keyed `k` in `gs`. -/
def memGroup (gs : Groups) (k : String) (e : CalendarEvent) : Prop :=
  ∃ l, (k, l) ∈ gs ∧ e ∈ l

/-- Loop body of `group_by_title`. -/
def gbt_step (gs : Groups) (e : CalendarEvent) : Groups :=
  addToGroup gs e.title e

/-- Embedding of `group_by_title` (src/calcatime.py lines 492-501). -/
def group_by_title (events : List CalendarEvent) : Groups :=
  events.foldl gbt_step []

/-- Loop body of `group_by_category`: fan-out over all categories of one
event, sentinel group when there are none. -/
def gbc_step (unknown_group : String) (gs : Groups)
    (e : CalendarEvent) : Groups :=
  if e.categories ≠ [] then
    e.categories.foldl (fun gs' cat => addToGroup gs' cat e) gs
  else
    addToGroup gs unknown_group e

/-- Embedding of `group_by_category` (src/calcatime.py lines 504-520):
fan-out over all categories, sentinel group `"---"` when there are
none. -/
def group_by_category (events : List CalendarEvent)
    (unknown_group : String) : Groups :=
  events.foldl (gbc_step unknown_group) []

/-- The candidate token list scanned by `group_by_pattern`: the
single-element title list for `attr = 'title'`, the categories for
`attr = 'category'`, nothing otherwise. -/
def candidates (attr : String) (e : CalendarEvent) : List String :=
  if attr = "title" then [e.title]
  else if attr = "category" then e.categories
  else []

/-- The matched substring of the first candidate token on which the
abstract regex engine reports a match (`re.search(...).group()` of the
first matching token, scanning in order). -/
def firstMatch (search : String → String → Option String)
    (pattern : String) : List String → Option String
  | [] => none
  | t :: ts =>
      match search pattern t with
      | some s => some s
      | none => firstMatch search pattern ts

/-- Loop body of `group_by_pattern` for one event: scan its candidate
tokens in order; on the first match, add the event under the matched
substring and stop. -/
def gbp_step (search : String → String → Option String)
    (pattern attr : String) (gs : Groups) (e : CalendarEvent) : Groups :=
  let target_tokens := candidates attr e
  if target_tokens ≠ [] then
    match firstMatch search pattern target_tokens with
    | some matched_token => addToGroup gs matched_token e
    | none => gs
  else gs

/-- Embedding of `group_by_pattern` (src/calcatime.py lines 523-546).
`search pattern token` abstracts the external call
`re.search(pattern, token, flags=re.IGNORECASE)`, returning the matched
substring `match.group()` when the engine reports a match. -/
def group_by_pattern (search : String → String → Option String)
    (events : List CalendarEvent) (pattern : String)
    (attr : String) : Groups :=
  events.foldl (gbp_step search pattern attr) []

/-- Python's `str.split(':')` with no maxsplit: split on every colon;
the empty string yields `[""]`. -/
def splitColonAux : List Char → List (List Char)
  | [] => [[]]
  | c :: cs =>
      match splitColonAux cs with
      | [] => [[]]
      | g :: gs => if c = ':' then [] :: g :: gs else (c :: g) :: gs

/-- `s.split(':')` as on a Python `str`. -/
def pySplit (s : String) : List String :=
  (splitColonAux s.toList).map String.mk

/-- `s.startswith(pre)` as on a Python `str`. -/
def pyStartsWith (s pre : String) : Bool :=
  pre.toList.isPrefixOf s.toList

/-- Embedding of `group_events` (src/calcatime.py lines 466-489).
The `_, pattern = group_attr.split(':')` unpacking raises `ValueError`
unless the split has exactly two parts. -/
def group_events (search : String → String → Option String)
    (events : List CalendarEvent) (group_attr : String) :
    Except PyError Groups :=
  if events.isEmpty then .ok []
  else if pyStartsWith group_attr "category:" then
    match pySplit group_attr with
    | [_, pattern] =>
        if pattern ≠ "" then
          .ok (group_by_pattern search events pattern "category")
        else .ok []
    | _ => .error .valueError
  else if group_attr = "category" then .ok (group_by_category events "---")
  else if pyStartsWith group_attr "title:" then
    match pySplit group_attr with
    | [_, pattern] =>
        if pattern ≠ "" then
          .ok (group_by_pattern search events pattern "title")
        else .ok []
    | _ => .error .valueError
  else if group_attr = "title" then .ok (group_by_title events)
  else .ok []

/-- `today_start`: midnight of the anchor date. -/
def todayStartOf (t : Date) : Int :=
  toDays t.year t.month t.day

/-- `week_start`: the Monday of the anchor's week. -/
def weekStartOf (t : Date) : Int :=
  todayStartOf t - weekday (todayStartOf t)

/-- `offset`, the scalar day shift computed from the tokens:
`7 * nextCount - 7 * lastCount`. -/
def offsetOf (tokens : List String) : Int :=
  7 * (tokens.count "next" : Int) - 7 * (tokens.count "last" : Int)

/-- One of the five main timespan tokens is present. -/
def hasMainToken (tokens : List String) : Bool :=
  tokens.contains "today" || tokens.contains "yesterday" ||
  tokens.contains "week" || tokens.contains "month" ||
  tokens.contains "year"

/-- One of the reserved-but-unsupported tokens is present. -/
def hasReservedToken (tokens : List String) : Bool :=
  tokens.contains "decade" || tokens.contains "century" ||
  tokens.contains "millennium"

/-- Some weekday name or abbreviation is present. -/
def hasWeekdayToken (tokens : List String) : Bool :=
  (find_weekday_index tokens).isSome

/-- The grouping-specification strings recognized by `group_events`:
`"category"`, `"title"`, `"category:<regex>"` and `"title:<regex>"`
with a non-empty (otherwise arbitrary) regex after the first colon. -/
def recognizedSpecForm (s : String) : Bool :=
  s == "category" || s == "title" ||
  (pyStartsWith s "category:" && s != "category:") ||
  (pyStartsWith s "title:" && s != "title:")

/-- A concrete event used to instantiate theorems with hypotheses. -/
def sampleEvent : CalendarEvent :=
  { title := "Project X"
    start := 0
    end_ := 3600
    duration := 1
    categories := [] }

/-! ### Arithmetic facts about the embedded calendar -/

theorem daysInMonth_bounds (y m : Int) :
    28 ≤ daysInMonth y m ∧ daysInMonth y m ≤ 31 := by
  unfold daysInMonth
  split_ifs <;> omega

theorem daysBeforeMonth_succ (y m : Int) (h1 : 1 ≤ m) (h2 : m ≤ 12) :
    daysBeforeMonth y (m + 1) = daysBeforeMonth y m + daysInMonth y m := by
  interval_cases m <;>
    cases h : isLeap y <;>
      norm_num [daysBeforeMonth, daysInMonth, h]

theorem toDays_month_succ (y m : Int) (h1 : 1 ≤ m) (h2 : m ≤ 12) :
    toDays y (m + 1) 1 = toDays y m 1 + daysInMonth y m := by
  unfold toDays
  rw [daysBeforeMonth_succ y m h1 h2]
  ring

theorem year_length (y : Int) :
    toDays (y + 1) 1 1 - toDays y 1 1 = if isLeap y then 366 else 365 := by
  unfold toDays leapsBefore daysBeforeMonth isLeap
  norm_num
  split_ifs with h
  · simp only [Bool.or_eq_true, Bool.and_eq_true, beq_iff_eq, bne_iff_ne,
      ne_eq] at h
    rcases h with ⟨h4, h100⟩ | h400 <;> omega
  · simp only [Bool.or_eq_true, Bool.and_eq_true, beq_iff_eq, bne_iff_ne,
      ne_eq, not_or, not_and] at h
    obtain ⟨h1, h2⟩ := h
    by_cases h4 : y % 4 = 0 <;> omega

theorem validYMD_first (y m : Int) :
    validYMD y m 1 = true ↔ (1 ≤ y ∧ y ≤ 9999 ∧ 1 ≤ m ∧ m ≤ 12) := by
  have hb := daysInMonth_bounds y m
  simp only [validYMD, Bool.and_eq_true, decide_eq_true_eq]
  omega

/-! ### Branch behavior of the resolver -/

theorem offsetOf_eq (tokens : List String) :
    -7 * (tokens.count "last" : Int) + 7 * (tokens.count "next" : Int) =
      offsetOf tokens := by
  unfold offsetOf; ring

theorem parse_today_branch (t : Date) (tokens : List String)
    (h : tokens.contains "today" = true) :
    parse_timerange_tokens t tokens =
      .ok (todayStartOf t + offsetOf tokens,
           todayStartOf t + 1 + offsetOf tokens) := by
  simp only [parse_timerange_tokens, h, if_true, ← offsetOf_eq,
    todayStartOf, offsetOf]
  norm_num
  ring

theorem parse_yesterday_branch (t : Date) (tokens : List String)
    (h1 : tokens.contains "today" = false)
    (h2 : tokens.contains "yesterday" = true) :
    parse_timerange_tokens t tokens =
      .ok (todayStartOf t - 1 + offsetOf tokens,
           todayStartOf t + offsetOf tokens) := by
  simp only [parse_timerange_tokens, h1, h2, todayStartOf, offsetOf]
  norm_num
  constructor <;> ring

theorem parse_week_branch (t : Date) (tokens : List String)
    (h1 : tokens.contains "today" = false)
    (h2 : tokens.contains "yesterday" = false)
    (h3 : tokens.contains "week" = true) :
    parse_timerange_tokens t tokens =
      .ok (weekStartOf t + offsetOf tokens,
           weekStartOf t + 7 + offsetOf tokens) := by
  simp only [parse_timerange_tokens, h1, h2, h3, weekStartOf, todayStartOf,
    offsetOf]
  norm_num
  constructor <;> ring

theorem parse_month_branch (t : Date) (tokens : List String)
    (h1 : tokens.contains "today" = false)
    (h2 : tokens.contains "yesterday" = false)
    (h3 : tokens.contains "week" = false)
    (h4 : tokens.contains "month" = true) :
    parse_timerange_tokens t tokens =
      month_branch t
        ((tokens.count "next" : Int) - (tokens.count "last" : Int)) := by
  simp only [parse_timerange_tokens, h1, h2, h3, h4]
  norm_num
  congr 1
  ring

theorem parse_year_branch (t : Date) (tokens : List String)
    (h1 : tokens.contains "today" = false)
    (h2 : tokens.contains "yesterday" = false)
    (h3 : tokens.contains "week" = false)
    (h4 : tokens.contains "month" = false)
    (h5 : tokens.contains "year" = true) :
    parse_timerange_tokens t tokens =
      year_branch t
        ((tokens.count "next" : Int) - (tokens.count "last" : Int)) := by
  simp only [parse_timerange_tokens, h1, h2, h3, h4, h5]
  norm_num
  congr 1
  ring

theorem parse_reserved_branch (t : Date) (tokens : List String)
    (h1 : tokens.contains "today" = false)
    (h2 : tokens.contains "yesterday" = false)
    (h3 : tokens.contains "week" = false)
    (h4 : tokens.contains "month" = false)
    (h5 : tokens.contains "year" = false)
    (h6 : (tokens.contains "decade" || tokens.contains "century" ||
           tokens.contains "millennium") = true) :
    parse_timerange_tokens t tokens = .error .notImplementedError := by
  simp only [Bool.or_eq_true] at h6
  by_cases hd : tokens.contains "decade" = true
  · simp only [parse_timerange_tokens, h1, h2, h3, h4, h5, hd]
    norm_num
  · simp only [Bool.not_eq_true] at hd
    by_cases hc : tokens.contains "century" = true
    · simp only [parse_timerange_tokens, h1, h2, h3, h4, h5, hd, hc]
      norm_num
    · simp only [Bool.not_eq_true] at hc
      have hm : tokens.contains "millennium" = true := by
        rcases h6 with (h | h) | h
        · rw [h] at hd; exact absurd hd (by simp)
        · rw [h] at hc; exact absurd hc (by simp)
        · exact h
      simp only [parse_timerange_tokens, h1, h2, h3, h4, h5, hd, hc, hm]
      norm_num

theorem parse_weekday_branch (t : Date) (tokens : List String)
    (h1 : tokens.contains "today" = false)
    (h2 : tokens.contains "yesterday" = false)
    (h3 : tokens.contains "week" = false)
    (h4 : tokens.contains "month" = false)
    (h5 : tokens.contains "year" = false)
    (h6 : tokens.contains "decade" = false)
    (h7 : tokens.contains "century" = false)
    (h8 : tokens.contains "millennium" = false)
    (idx : Nat) (h9 : find_weekday_index tokens = some idx) :
    parse_timerange_tokens t tokens =
      .ok (weekStartOf t + idx + offsetOf tokens,
           weekStartOf t + idx + 1 + offsetOf tokens) := by
  simp only [parse_timerange_tokens, h1, h2, h3, h4, h5, h6, h7, h8, h9,
    weekStartOf, todayStartOf, offsetOf]
  norm_num
  constructor <;> ring

theorem parse_no_token (t : Date) (tokens : List String)
    (h1 : tokens.contains "today" = false)
    (h2 : tokens.contains "yesterday" = false)
    (h3 : tokens.contains "week" = false)
    (h4 : tokens.contains "month" = false)
    (h5 : tokens.contains "year" = false)
    (h6 : tokens.contains "decade" = false)
    (h7 : tokens.contains "century" = false)
    (h8 : tokens.contains "millennium" = false)
    (h9 : find_weekday_index tokens = none) :
    parse_timerange_tokens t tokens = .error .unresolvedTimespan := by
  simp only [parse_timerange_tokens, h1, h2, h3, h4, h5, h6, h7, h8, h9]
  norm_num

theorem validAnchor_bounds (t : Date) (hv : validAnchor t) :
    1 ≤ t.year ∧ t.year ≤ 9999 ∧ 1 ≤ t.month ∧ t.month ≤ 12 := by
  unfold validAnchor validYMD at hv
  simp only [Bool.and_eq_true, decide_eq_true_eq] at hv
  omega

theorem except_bind_ok {ε α β : Type} (a : α) (f : α → Except ε β) :
    ((Except.ok a : Except ε α) >>= f) = f a := rfl

theorem except_bind_err {ε α β : Type} (e : ε) (f : α → Except ε β) :
    ((Except.error e : Except ε α) >>= f) = Except.error e := rfl

theorem except_map_ok {ε α β : Type} (f : α → β) (a : α) :
    (f <$> (Except.ok a : Except ε α)) = Except.ok (f a) := rfl

theorem except_map_err {ε α β : Type} (f : α → β) (e : ε) :
    (f <$> (Except.error e : Except ε α)) =
      (Except.error e : Except ε β) := rfl

theorem except_pure {ε α : Type} (a : α) :
    (pure a : Except ε α) = Except.ok a := rfl

theorem datetime_ctor_ok (y m d : Int) (h : validYMD y m d = true) :
    datetime_ctor y m d = .ok (toDays y m d) := by
  unfold datetime_ctor
  rw [h]
  simp

theorem datetime_ctor_err (y m d : Int) (h : validYMD y m d = false) :
    datetime_ctor y m d = .error .valueError := by
  unfold datetime_ctor
  rw [h]
  simp

theorem wrap_month_index_pos (mi : Int) (h : 1 ≤ mi) :
    wrap_month_index mi = mi := if_pos h

theorem wrap_month_index_neg (mi : Int) (h : ¬ 1 ≤ mi) :
    wrap_month_index mi = 12 := if_neg h

theorem month_branch_ok (t : Date) (delta : Int) (hv : validAnchor t)
    (h1 : 1 ≤ t.month + delta) (h2 : t.month + delta ≤ 11) :
    month_branch t delta =
      .ok (toDays t.year (t.month + delta) 1,
           toDays t.year (t.month + delta + 1) 1 - 1) := by
  obtain ⟨hy1, hy2, _, _⟩ := validAnchor_bounds t hv
  have e1 : validYMD t.year (t.month + delta) 1 = true :=
    (validYMD_first _ _).mpr ⟨hy1, hy2, by omega, by omega⟩
  have e2 : validYMD t.year (t.month + delta + 1) 1 = true :=
    (validYMD_first _ _).mpr ⟨hy1, hy2, by omega, by omega⟩
  simp only [month_branch, wrap_month_index_pos _ h1,
    datetime_ctor_ok _ _ _ e1, datetime_ctor_ok _ _ _ e2,
    except_bind_ok, except_map_ok, except_pure]
  rfl

theorem month_branch_err (t : Date) (delta : Int) (hv : validAnchor t)
    (h : t.month + delta < 1 ∨ 12 ≤ t.month + delta) :
    month_branch t delta = .error .valueError := by
  obtain ⟨hy1, hy2, _, _⟩ := validAnchor_bounds t hv
  rcases h with h | h
  · have hw : ¬ (1 ≤ t.month + delta) := by omega
    have e1 : validYMD t.year 12 1 = true :=
      (validYMD_first _ _).mpr ⟨hy1, hy2, by norm_num, by norm_num⟩
    have e2 : validYMD t.year (12 + 1) 1 = false := by
      rw [Bool.eq_false_iff, ne_eq, validYMD_first]
      omega
    simp only [month_branch, wrap_month_index_neg _ hw,
      datetime_ctor_ok _ _ _ e1, datetime_ctor_err _ _ _ e2,
      except_bind_ok, except_bind_err, except_map_err]
  · have h1 : (1 : Int) ≤ t.month + delta := by omega
    by_cases h12 : t.month + delta = 12
    · have e1 : validYMD t.year (t.month + delta) 1 = true :=
        (validYMD_first _ _).mpr ⟨hy1, hy2, by omega, by omega⟩
      have e2 : validYMD t.year (t.month + delta + 1) 1 = false := by
        rw [Bool.eq_false_iff, ne_eq, validYMD_first]
        omega
      simp only [month_branch, wrap_month_index_pos _ h1,
        datetime_ctor_ok _ _ _ e1, datetime_ctor_err _ _ _ e2,
        except_bind_ok, except_bind_err, except_map_err]
    · have e1 : validYMD t.year (t.month + delta) 1 = false := by
        rw [Bool.eq_false_iff, ne_eq, validYMD_first]
        omega
      simp only [month_branch, wrap_month_index_pos _ h1,
        datetime_ctor_err _ _ _ e1, except_bind_err]

theorem year_branch_ok (t : Date) (delta : Int)
    (h1 : 1 ≤ t.year + delta) (h2 : t.year + delta ≤ 9998) :
    year_branch t delta =
      .ok (toDays (t.year + delta) 1 1,
           toDays (t.year + delta + 1) 1 1 - 1) := by
  have e1 : validYMD (t.year + delta) 1 1 = true :=
    (validYMD_first _ _).mpr ⟨h1, by omega, by norm_num, by norm_num⟩
  have e2 : validYMD (t.year + delta + 1) 1 1 = true :=
    (validYMD_first _ _).mpr ⟨by omega, by omega, by norm_num, by norm_num⟩
  simp only [year_branch, datetime_ctor_ok _ _ _ e1,
    datetime_ctor_ok _ _ _ e2, except_bind_ok, except_map_ok, except_pure]
  rfl

theorem year_branch_err (t : Date) (delta : Int)
    (h : t.year + delta < 1 ∨ 9999 ≤ t.year + delta) :
    year_branch t delta = .error .valueError := by
  rcases h with h | h
  · have e1 : validYMD (t.year + delta) 1 1 = false := by
      rw [Bool.eq_false_iff, ne_eq, validYMD_first]
      omega
    simp only [year_branch, datetime_ctor_err _ _ _ e1, except_bind_err]
  · by_cases h9 : t.year + delta = 9999
    · have e1 : validYMD (t.year + delta) 1 1 = true :=
        (validYMD_first _ _).mpr ⟨by omega, by omega, by norm_num, by norm_num⟩
      have e2 : validYMD (t.year + delta + 1) 1 1 = false := by
        rw [Bool.eq_false_iff, ne_eq, validYMD_first]
        omega
      simp only [year_branch, datetime_ctor_ok _ _ _ e1,
        datetime_ctor_err _ _ _ e2, except_bind_ok, except_bind_err,
        except_map_err]
    · have e1 : validYMD (t.year + delta) 1 1 = false := by
        rw [Bool.eq_false_iff, ne_eq, validYMD_first]
        omega
      simp only [year_branch, datetime_ctor_err _ _ _ e1, except_bind_err]

/-! ### Claim C6 -/

/-- C6: the resolver computes `offsetDays = 7*nextCount - 7*lastCount`
and applies this single scalar shift uniformly to the `today`,
`yesterday`, `week` and weekday-name branches; in particular
`resolve(["last","last","week"])` is the plain `resolve(["week"])`
interval shifted back exactly 14 days and `resolve(["next","week"])` is
it shifted forward exactly 7 days. -/
theorem resolver_offset_uniform (t : Date) (tokens : List String) :
    (tokens.contains "today" = true →
        parse_timerange_tokens t tokens =
          .ok (todayStartOf t + offsetOf tokens,
               todayStartOf t + 1 + offsetOf tokens)) ∧
    (tokens.contains "today" = false → tokens.contains "yesterday" = true →
        parse_timerange_tokens t tokens =
          .ok (todayStartOf t - 1 + offsetOf tokens,
               todayStartOf t + offsetOf tokens)) ∧
    (tokens.contains "today" = false → tokens.contains "yesterday" = false →
     tokens.contains "week" = true →
        parse_timerange_tokens t tokens =
          .ok (weekStartOf t + offsetOf tokens,
               weekStartOf t + 7 + offsetOf tokens)) ∧
    (∀ idx : Nat, hasMainToken tokens = false →
     hasReservedToken tokens = false →
     find_weekday_index tokens = some idx →
        parse_timerange_tokens t tokens =
          .ok (weekStartOf t + idx + offsetOf tokens,
               weekStartOf t + idx + 1 + offsetOf tokens)) ∧
    parse_timerange_tokens t ["week"] =
      .ok (weekStartOf t, weekStartOf t + 7) ∧
    parse_timerange_tokens t ["last", "last", "week"] =
      .ok (weekStartOf t - 14, weekStartOf t + 7 - 14) ∧
    parse_timerange_tokens t ["next", "week"] =
      .ok (weekStartOf t + 7, weekStartOf t + 7 + 7) := by
  refine ⟨parse_today_branch t tokens, parse_yesterday_branch t tokens,
    parse_week_branch t tokens, ?_, ?_, ?_, ?_⟩
  · intro idx hA hB hfind
    simp only [hasMainToken, Bool.or_eq_false_iff] at hA
    obtain ⟨⟨⟨⟨c1, c2⟩, c3⟩, c4⟩, c5⟩ := hA
    simp only [hasReservedToken, Bool.or_eq_false_iff] at hB
    obtain ⟨⟨c6, c7⟩, c8⟩ := hB
    exact parse_weekday_branch t tokens c1 c2 c3 c4 c5 c6 c7 c8 idx hfind
  · rw [parse_week_branch t ["week"] (by decide) (by decide) (by decide),
      show offsetOf ["week"] = 0 from by decide]
    all_goals simp only [Except.ok.injEq, Prod.mk.injEq]
    all_goals exact ⟨by ring, by ring⟩
  · rw [parse_week_branch t ["last", "last", "week"] (by decide) (by decide)
      (by decide),
      show offsetOf ["last", "last", "week"] = -14 from by decide]
    all_goals simp only [Except.ok.injEq, Prod.mk.injEq]
    all_goals exact ⟨by ring, by ring⟩
  · rw [parse_week_branch t ["next", "week"] (by decide) (by decide)
      (by decide),
      show offsetOf ["next", "week"] = 7 from by decide]
    all_goals simp only [Except.ok.injEq, Prod.mk.injEq]
    all_goals exact ⟨by ring, by ring⟩

/-- C6 witness: the theorem applied at a concrete anchor and token
list. -/
theorem resolver_offset_uniform_witness :
    parse_timerange_tokens ⟨2024, 3, 4⟩ ["today"] =
      .ok (todayStartOf ⟨2024, 3, 4⟩ + offsetOf ["today"],
           todayStartOf ⟨2024, 3, 4⟩ + 1 + offsetOf ["today"]) :=
  (resolver_offset_uniform ⟨2024, 3, 4⟩ ["today"]).1 (by decide)

/-! ### Claim C9 -/

theorem parse_not_unresolved (t : Date) (tokens : List String)
    (hv : validAnchor t)
    (h : hasMainToken tokens = true ∨ hasReservedToken tokens = true ∨
         hasWeekdayToken tokens = true) :
    parse_timerange_tokens t tokens ≠ .error .unresolvedTimespan := by
  by_cases c1 : tokens.contains "today" = true
  · rw [parse_today_branch t tokens c1]; simp
  rw [Bool.not_eq_true] at c1
  by_cases c2 : tokens.contains "yesterday" = true
  · rw [parse_yesterday_branch t tokens c1 c2]; simp
  rw [Bool.not_eq_true] at c2
  by_cases c3 : tokens.contains "week" = true
  · rw [parse_week_branch t tokens c1 c2 c3]; simp
  rw [Bool.not_eq_true] at c3
  by_cases c4 : tokens.contains "month" = true
  · rw [parse_month_branch t tokens c1 c2 c3 c4]
    rcases lt_or_le (t.month + ((tokens.count "next" : Int) -
        tokens.count "last")) 1 with hm | hm
    · rw [month_branch_err t _ hv (Or.inl hm)]; simp
    · rcases lt_or_le (t.month + ((tokens.count "next" : Int) -
          tokens.count "last")) 12 with hm2 | hm2
      · rw [month_branch_ok t _ hv (by omega) (by omega)]; simp
      · rw [month_branch_err t _ hv (Or.inr hm2)]; simp
  rw [Bool.not_eq_true] at c4
  by_cases c5 : tokens.contains "year" = true
  · rw [parse_year_branch t tokens c1 c2 c3 c4 c5]
    obtain ⟨hy1, hy2, _, _⟩ := validAnchor_bounds t hv
    rcases lt_or_le (t.year + ((tokens.count "next" : Int) -
        tokens.count "last")) 1 with hy | hy
    · rw [year_branch_err t _ (Or.inl hy)]; simp
    · rcases lt_or_le (t.year + ((tokens.count "next" : Int) -
          tokens.count "last")) 9999 with hz | hz
      · rw [year_branch_ok t _ (by omega) (by omega)]; simp
      · rw [year_branch_err t _ (Or.inr hz)]; simp
  rw [Bool.not_eq_true] at c5
  by_cases cr : (tokens.contains "decade" || tokens.contains "century" ||
      tokens.contains "millennium") = true
  · rw [parse_reserved_branch t tokens c1 c2 c3 c4 c5 cr]; simp
  · simp only [Bool.or_eq_true, not_or, Bool.not_eq_true] at cr
    obtain ⟨⟨c6, c7⟩, c8⟩ := cr
    cases hfind : find_weekday_index tokens with
    | some idx =>
        rw [parse_weekday_branch t tokens c1 c2 c3 c4 c5 c6 c7 c8 idx hfind]
        simp
    | none =>
        exfalso
        rcases h with hA | hB | hC
        · simp only [hasMainToken, c1, c2, c3, c4, c5] at hA
          simp at hA
        · simp only [hasReservedToken, c6, c7, c8] at hB
          simp at hB
        · simp [hasWeekdayToken, hfind] at hC

/-- C9 (amended): the resolver fails with `UnresolvedTimespan` exactly
when no recognized token is present (in particular on the empty list);
it fails with `NotImplemented` whenever a reserved token
(`decade`/`century`/`millennium`) triggers its branch; the
`today`/`yesterday`/`week` and weekday branches always return a full
interval; the `month` and `year` branches return a full interval except
that they raise `ValueError` when the shifted month index is outside
`1..11` (in particular whenever the effective month is December) or the
shifted year is outside `1..9998`. -/
theorem resolver_failure_modes (t : Date) (tokens : List String)
    (hv : validAnchor t) :
    (parse_timerange_tokens t tokens = .error .unresolvedTimespan ↔
       hasMainToken tokens = false ∧ hasReservedToken tokens = false ∧
       hasWeekdayToken tokens = false) ∧
    (hasMainToken tokens = false → hasReservedToken tokens = true →
       parse_timerange_tokens t tokens = .error .notImplementedError) ∧
    ((tokens.contains "today" || tokens.contains "yesterday" ||
      tokens.contains "week") = true →
       ∃ p, parse_timerange_tokens t tokens = .ok p) ∧
    (hasMainToken tokens = false → hasReservedToken tokens = false →
     hasWeekdayToken tokens = true →
       ∃ p, parse_timerange_tokens t tokens = .ok p) ∧
    (tokens.contains "today" = false → tokens.contains "yesterday" = false →
     tokens.contains "week" = false → tokens.contains "month" = true →
       (1 ≤ t.month + ((tokens.count "next" : Int) - tokens.count "last") →
        t.month + ((tokens.count "next" : Int) - tokens.count "last") ≤ 11 →
          ∃ p, parse_timerange_tokens t tokens = .ok p) ∧
       (t.month + ((tokens.count "next" : Int) - tokens.count "last") < 1 ∨
        12 ≤ t.month + ((tokens.count "next" : Int) - tokens.count "last") →
          parse_timerange_tokens t tokens = .error .valueError)) ∧
    (tokens.contains "today" = false → tokens.contains "yesterday" = false →
     tokens.contains "week" = false → tokens.contains "month" = false →
     tokens.contains "year" = true →
       (1 ≤ t.year + ((tokens.count "next" : Int) - tokens.count "last") →
        t.year + ((tokens.count "next" : Int) - tokens.count "last") ≤ 9998 →
          ∃ p, parse_timerange_tokens t tokens = .ok p) ∧
       (t.year + ((tokens.count "next" : Int) - tokens.count "last") < 1 ∨
        9999 ≤ t.year + ((tokens.count "next" : Int) - tokens.count "last") →
          parse_timerange_tokens t tokens = .error .valueError)) := by
  refine ⟨⟨?_, ?_⟩, ?_, ?_, ?_, ?_, ?_⟩
  · intro h
    by_contra hcon
    refine parse_not_unresolved t tokens hv ?_ h
    cases hA : hasMainToken tokens
    · cases hB : hasReservedToken tokens
      · cases hC : hasWeekdayToken tokens
        · exact absurd ⟨hA, hB, hC⟩ hcon
        · exact Or.inr (Or.inr rfl)
      · exact Or.inr (Or.inl rfl)
    · exact Or.inl rfl
  · rintro ⟨hA, hB, hC⟩
    simp only [hasMainToken, Bool.or_eq_false_iff] at hA
    obtain ⟨⟨⟨⟨c1, c2⟩, c3⟩, c4⟩, c5⟩ := hA
    simp only [hasReservedToken, Bool.or_eq_false_iff] at hB
    obtain ⟨⟨c6, c7⟩, c8⟩ := hB
    cases hfind : find_weekday_index tokens with
    | some idx =>
        simp only [hasWeekdayToken, hfind] at hC
        simp at hC
    | none => exact parse_no_token t tokens c1 c2 c3 c4 c5 c6 c7 c8 hfind
  · intro hA hB
    simp only [hasMainToken, Bool.or_eq_false_iff] at hA
    obtain ⟨⟨⟨⟨c1, c2⟩, c3⟩, c4⟩, c5⟩ := hA
    exact parse_reserved_branch t tokens c1 c2 c3 c4 c5 hB
  · intro hA
    by_cases c1 : tokens.contains "today" = true
    · exact ⟨_, parse_today_branch t tokens c1⟩
    rw [Bool.not_eq_true] at c1
    by_cases c2 : tokens.contains "yesterday" = true
    · exact ⟨_, parse_yesterday_branch t tokens c1 c2⟩
    rw [Bool.not_eq_true] at c2
    by_cases c3 : tokens.contains "week" = true
    · exact ⟨_, parse_week_branch t tokens c1 c2 c3⟩
    rw [Bool.not_eq_true] at c3
    rw [c1, c2, c3] at hA
    simp at hA
  · intro hA hB hC
    simp only [hasMainToken, Bool.or_eq_false_iff] at hA
    obtain ⟨⟨⟨⟨c1, c2⟩, c3⟩, c4⟩, c5⟩ := hA
    simp only [hasReservedToken, Bool.or_eq_false_iff] at hB
    obtain ⟨⟨c6, c7⟩, c8⟩ := hB
    cases hfind : find_weekday_index tokens with
    | some idx =>
        exact ⟨_, parse_weekday_branch t tokens c1 c2 c3 c4 c5 c6 c7 c8
          idx hfind⟩
    | none =>
        simp only [hasWeekdayToken, hfind] at hC
        simp at hC
  · intro c1 c2 c3 c4
    rw [parse_month_branch t tokens c1 c2 c3 c4]
    constructor
    · intro hm1 hm2
      exact ⟨_, month_branch_ok t _ hv hm1 hm2⟩
    · intro hm
      exact month_branch_err t _ hv hm
  · intro c1 c2 c3 c4 c5
    rw [parse_year_branch t tokens c1 c2 c3 c4 c5]
    constructor
    · intro hy1 hy2
      exact ⟨_, year_branch_ok t _ hy1 hy2⟩
    · intro hy
      exact year_branch_err t _ hy

/-- C9 witness: `resolve([])` from a concrete anchor fails with
`UnresolvedTimespan`. -/
theorem resolver_failure_modes_witness :
    parse_timerange_tokens ⟨2024, 3, 6⟩ [] = .error .unresolvedTimespan :=
  (resolver_failure_modes ⟨2024, 3, 6⟩ [] (by decide)).1.mpr (by decide)

/-- C9 counterexample to the claim as stated: `["month"]` in December is
a recognized, non-reserved token combination, yet no full interval is
returned; the resolver raises `ValueError` instead. -/
theorem resolver_failure_modes_counterexample :
    parse_timerange_tokens ⟨2024, 12, 15⟩ ["month"] =
      .error .valueError := by decide

/-! ### Claim C1 -/

/-- C1 counterexample to the claim as stated: in February 2023 the
`month` branch returns an interval of 27 days whose end is one day
before the first of the next month (the claim says exactly the calendar
month, 28-31 days, ending on the first of the next month); in 2023 the
`year` branch returns an interval of 364 days (the claim says 365-366,
ending on Jan 1 of the next year). -/
theorem month_year_interval_counterexample :
    parse_timerange_tokens ⟨2023, 2, 10⟩ ["month"] =
      .ok (toDays 2023 2 1, toDays 2023 2 1 + 27) ∧
    toDays 2023 3 1 = toDays 2023 2 1 + 28 ∧
    parse_timerange_tokens ⟨2023, 6, 1⟩ ["year"] =
      .ok (toDays 2023 1 1, toDays 2023 1 1 + 364) ∧
    toDays 2024 1 1 = toDays 2023 1 1 + 365 := by decide

/-- C1 (amended): when the `month` branch fires with effective month
index `mi` in `1..11`, the interval starts on the first of that month
and ends one day before the first of the following month, so its length
is `daysInMonth - 1` days (27-30); with index 12 or more the branch
raises `ValueError` instead.  When the `year` branch fires with target
year in `1..9998`, the interval starts on Jan 1 of that year and ends
one day before Jan 1 of the following year, so its length is 364 days
(365 in a leap year); with target year outside `1..9998` the branch
raises `ValueError` instead. -/
theorem month_year_interval_shape (t : Date) (tokens : List String)
    (hv : validAnchor t) :
    (∀ mi : Int,
       mi = t.month + ((tokens.count "next" : Int) - tokens.count "last") →
       tokens.contains "today" = false →
       tokens.contains "yesterday" = false →
       tokens.contains "week" = false → tokens.contains "month" = true →
       (1 ≤ mi → mi ≤ 11 →
          parse_timerange_tokens t tokens =
            .ok (toDays t.year mi 1, toDays t.year (mi + 1) 1 - 1) ∧
          toDays t.year (mi + 1) 1 - 1 - toDays t.year mi 1 =
            daysInMonth t.year mi - 1 ∧
          27 ≤ daysInMonth t.year mi - 1 ∧ daysInMonth t.year mi - 1 ≤ 30) ∧
       (12 ≤ mi →
          parse_timerange_tokens t tokens = .error .valueError)) ∧
    (∀ yn : Int,
       yn = t.year + ((tokens.count "next" : Int) - tokens.count "last") →
       tokens.contains "today" = false →
       tokens.contains "yesterday" = false →
       tokens.contains "week" = false → tokens.contains "month" = false →
       tokens.contains "year" = true →
       (1 ≤ yn → yn ≤ 9998 →
          parse_timerange_tokens t tokens =
            .ok (toDays yn 1 1, toDays (yn + 1) 1 1 - 1) ∧
          toDays (yn + 1) 1 1 - 1 - toDays yn 1 1 =
            (if isLeap yn then 366 else 365) - 1 ∧
          364 ≤ toDays (yn + 1) 1 1 - 1 - toDays yn 1 1 ∧
          toDays (yn + 1) 1 1 - 1 - toDays yn 1 1 ≤ 365) ∧
       (yn < 1 ∨ 9999 ≤ yn →
          parse_timerange_tokens t tokens = .error .valueError)) := by
  constructor
  · rintro mi rfl c1 c2 c3 c4
    rw [parse_month_branch t tokens c1 c2 c3 c4]
    constructor
    · intro hm1 hm2
      refine ⟨month_branch_ok t _ hv hm1 hm2, ?_, ?_, ?_⟩
      · have := toDays_month_succ t.year _ hm1 (by omega)
        omega
      · have := daysInMonth_bounds t.year
          (t.month + ((tokens.count "next" : Int) - tokens.count "last"))
        omega
      · have := daysInMonth_bounds t.year
          (t.month + ((tokens.count "next" : Int) - tokens.count "last"))
        omega
    · intro hm
      exact month_branch_err t _ hv (Or.inr hm)
  · rintro yn rfl c1 c2 c3 c4 c5
    rw [parse_year_branch t tokens c1 c2 c3 c4 c5]
    constructor
    · intro hy1 hy2
      refine ⟨year_branch_ok t _ hy1 hy2, ?_, ?_, ?_⟩
      · have := year_length
          (t.year + ((tokens.count "next" : Int) - tokens.count "last"))
        split_ifs at this ⊢ <;> omega
      · have := year_length
          (t.year + ((tokens.count "next" : Int) - tokens.count "last"))
        split_ifs at this <;> omega
      · have := year_length
          (t.year + ((tokens.count "next" : Int) - tokens.count "last"))
        split_ifs at this <;> omega
    · intro hy
      exact year_branch_err t _ hy

/-- C1 witness: the amended theorem applied in May 2024. -/
theorem month_year_interval_shape_witness :
    parse_timerange_tokens ⟨2024, 5, 15⟩ ["month"] =
      .ok (toDays 2024 5 1, toDays 2024 (5 + 1) 1 - 1) :=
  (((month_year_interval_shape ⟨2024, 5, 15⟩ ["month"] (by decide)).1 5
      (by decide) (by decide) (by decide) (by decide) (by decide)).1
    (by norm_num) (by norm_num)).1

/-! ### Claim C7 -/

/-- C7 counterexample to the claim as stated: from a January anchor,
`["last","month"]` does not resolve to an interval at all; the wrapped
month index 12 makes `datetime(year, 13, 1)` raise `ValueError`, so no
three disjoint chronologically ordered intervals exist. -/
theorem month_roundtrip_counterexample :
    parse_timerange_tokens ⟨2024, 1, 15⟩ ["last", "month"] =
      .error .valueError := by decide

/-- C7 (amended): for anchors whose month lies in `2..10`, resolving
`["month"]`, `["last","month"]` and `["next","month"]` yields three
intervals that start on the first of the previous, current and next
month respectively, are pairwise disjoint and in chronological order;
for anchor months 1, 11 and 12 at least one of the three resolutions
raises `ValueError` instead. -/
theorem month_roundtrip_ordered (t : Date) (hv : validAnchor t) :
    (2 ≤ t.month → t.month ≤ 10 →
      parse_timerange_tokens t ["month"] =
        .ok (toDays t.year t.month 1, toDays t.year (t.month + 1) 1 - 1) ∧
      parse_timerange_tokens t ["last", "month"] =
        .ok (toDays t.year (t.month - 1) 1, toDays t.year t.month 1 - 1) ∧
      parse_timerange_tokens t ["next", "month"] =
        .ok (toDays t.year (t.month + 1) 1,
             toDays t.year (t.month + 2) 1 - 1) ∧
      toDays t.year (t.month - 1) 1 < toDays t.year t.month 1 - 1 ∧
      toDays t.year t.month 1 - 1 ≤ toDays t.year t.month 1 ∧
      toDays t.year t.month 1 < toDays t.year (t.month + 1) 1 - 1 ∧
      toDays t.year (t.month + 1) 1 - 1 ≤ toDays t.year (t.month + 1) 1 ∧
      toDays t.year (t.month + 1) 1 < toDays t.year (t.month + 2) 1 - 1) ∧
    (t.month = 1 →
      parse_timerange_tokens t ["last", "month"] = .error .valueError) ∧
    (t.month = 11 →
      parse_timerange_tokens t ["next", "month"] = .error .valueError) ∧
    (t.month = 12 →
      parse_timerange_tokens t ["month"] = .error .valueError) := by
  have hc : parse_timerange_tokens t ["month"] = month_branch t 0 := by
    rw [parse_month_branch t ["month"] (by decide) (by decide) (by decide)
      (by decide)]
    all_goals congr 1
    all_goals decide
  have hl : parse_timerange_tokens t ["last", "month"] =
      month_branch t (-1) := by
    rw [parse_month_branch t ["last", "month"] (by decide) (by decide)
      (by decide) (by decide)]
    all_goals congr 1
    all_goals decide
  have hn : parse_timerange_tokens t ["next", "month"] =
      month_branch t 1 := by
    rw [parse_month_branch t ["next", "month"] (by decide) (by decide)
      (by decide) (by decide)]
    all_goals congr 1
    all_goals decide
  refine ⟨?_, ?_, ?_, ?_⟩
  · intro hm1 hm2
    have e0 := month_branch_ok t 0 hv (by omega) (by omega)
    have e1 := month_branch_ok t (-1) hv (by omega) (by omega)
    have e2 := month_branch_ok t 1 hv (by omega) (by omega)
    rw [show t.month + (0 : Int) = t.month by ring] at e0
    rw [show t.month + (-1 : Int) = t.month - 1 by ring] at e1
    rw [show t.month - 1 + 1 = t.month by ring] at e1
    rw [show t.month + (1 : Int) + 1 = t.month + 2 by ring] at e2
    have l0 := toDays_month_succ t.year (t.month - 1) (by omega) (by omega)
    have l1 := toDays_month_succ t.year t.month (by omega) (by omega)
    have l2 := toDays_month_succ t.year (t.month + 1) (by omega) (by omega)
    rw [show t.month - 1 + 1 = t.month by ring] at l0
    rw [show t.month + 1 + 1 = t.month + 2 by ring] at l2
    have b0 := daysInMonth_bounds t.year (t.month - 1)
    have b1 := daysInMonth_bounds t.year t.month
    have b2 := daysInMonth_bounds t.year (t.month + 1)
    refine ⟨hc.trans e0, hl.trans e1, hn.trans e2, ?_, ?_, ?_, ?_, ?_⟩ <;>
      omega
  · intro h1
    rw [hl]
    exact month_branch_err t (-1) hv (Or.inl (by omega))
  · intro h11
    rw [hn]
    exact month_branch_err t 1 hv (Or.inr (by omega))
  · intro h12
    rw [hc]
    exact month_branch_err t 0 hv (Or.inr (by omega))

/-- C7 witness: the amended theorem applied in June 2024. -/
theorem month_roundtrip_ordered_witness :
    parse_timerange_tokens ⟨2024, 6, 10⟩ ["last", "month"] =
      .ok (toDays 2024 (6 - 1) 1, toDays 2024 6 1 - 1) :=
  ((month_roundtrip_ordered ⟨2024, 6, 10⟩ (by decide)).1
    (by norm_num) (by norm_num)).2.1

/-! ### Claim C8 -/

/-- C8 counterexample to the claim as stated: from a January anchor the
wrapped month index is 12, but the resolution does not produce a
December interval (of the current or any year) - it raises `ValueError`
while constructing `datetime(year, 13, 1)`. -/
theorem month_wrap_counterexample :
    parse_timerange_tokens ⟨2025, 1, 10⟩ ["last", "month"] =
      .error .valueError := by decide

/-- C8 (amended): when the computed month index is less than 1 the code
does set the index to 12 of the current year (it never rolls further
back into previous years), but the branch then always fails with
`ValueError` when constructing the month end `datetime(year, 13, 1)`,
so no interval is returned. -/
theorem month_wrap_behavior (t : Date) (tokens : List String)
    (hv : validAnchor t)
    (h1 : tokens.contains "today" = false)
    (h2 : tokens.contains "yesterday" = false)
    (h3 : tokens.contains "week" = false)
    (h4 : tokens.contains "month" = true)
    (hlt : t.month + ((tokens.count "next" : Int) - tokens.count "last")
      < 1) :
    wrap_month_index
      (t.month + (-(tokens.count "last" : Int) + tokens.count "next"))
      = 12 ∧
    parse_timerange_tokens t tokens = .error .valueError := by
  constructor
  · exact wrap_month_index_neg _ (by omega)
  · rw [parse_month_branch t tokens h1 h2 h3 h4]
    exact month_branch_err t _ hv (Or.inl hlt)

/-- C8 witness: the amended theorem applied to
`["last","last","month"]` in February 2024 (computed index 0). -/
theorem month_wrap_behavior_witness :
    wrap_month_index
      ((⟨2024, 2, 5⟩ : Date).month +
        (-(List.count "last" ["last", "last", "month"] : Int) +
          List.count "next" ["last", "last", "month"])) = 12 ∧
    parse_timerange_tokens ⟨2024, 2, 5⟩ ["last", "last", "month"] =
      .error .valueError :=
  month_wrap_behavior ⟨2024, 2, 5⟩ ["last", "last", "month"] (by decide)
    (by decide) (by decide) (by decide) (by decide) (by decide)

/-! ### Claim C2 -/

/-- C2: the collectors compute `duration = (end - start).seconds / 3600`,
and a Python timedelta's `.seconds` attribute keeps only the
sub-day remainder.  For a 25-hour event (90000 seconds) the stored
duration is 1.0 hour, while `(end - start)` expressed in hours is 25:
the claimed derivation fails for events spanning one day or more. -/
theorem duration_drops_whole_days :
    (exchange_event "e" 0 90000 []).duration = 1 ∧
    ((90000 : ℚ) - 0) / 3600 = 25 := by
  constructor
  · show py_duration_hours 0 90000 = 1
    rw [py_duration_hours, timedelta_seconds,
      show (90000 - 0 : Int) % 86400 = 3600 by decide]
    norm_num
  · norm_num

/-! ### Membership in grouped events -/

theorem memGroup_nil (k : String) (e : CalendarEvent) :
    ¬ memGroup [] k e := by
  simp [memGroup]

theorem memGroup_cons (a : String) (l : List CalendarEvent) (gs : Groups)
    (k : String) (e : CalendarEvent) :
    memGroup ((a, l) :: gs) k e ↔ (k = a ∧ e ∈ l) ∨ memGroup gs k e := by
  unfold memGroup
  constructor
  · rintro ⟨l', hmem, he⟩
    rcases List.mem_cons.mp hmem with heq | hmem'
    · rw [Prod.mk.injEq] at heq
      exact Or.inl ⟨heq.1, heq.2 ▸ he⟩
    · exact Or.inr ⟨l', hmem', he⟩
  · rintro (⟨rfl, he⟩ | ⟨l', hmem, he⟩)
    · exact ⟨l, List.mem_cons_self _ _, he⟩
    · exact ⟨l', List.mem_cons_of_mem _ hmem, he⟩

theorem memGroup_addToGroup (gs : Groups) (key : String)
    (e0 : CalendarEvent) (k : String) (e : CalendarEvent) :
    memGroup (addToGroup gs key e0) k e ↔
      memGroup gs k e ∨ (k = key ∧ e = e0) := by
  induction gs with
  | nil =>
      rw [addToGroup, memGroup_cons]
      simp [memGroup_nil]
  | cons p rest ih =>
      obtain ⟨a, l⟩ := p
      by_cases hk : a = key
      · subst hk
        rw [addToGroup, if_pos rfl, memGroup_cons, memGroup_cons]
        simp only [List.mem_append, List.mem_singleton]
        tauto
      · rw [addToGroup, if_neg hk, memGroup_cons, memGroup_cons, ih]
        tauto

theorem memGroup_gbc_step (u : String) (gs : Groups) (ev : CalendarEvent)
    (k : String) (e : CalendarEvent) :
    memGroup (gbc_step u gs ev) k e ↔
      memGroup gs k e ∨
        (e = ev ∧ (k ∈ ev.categories ∨ (ev.categories = [] ∧ k = u))) := by
  have inner : ∀ (cats : List String) (gs' : Groups),
      memGroup (cats.foldl (fun g cat => addToGroup g cat ev) gs') k e ↔
        memGroup gs' k e ∨ (e = ev ∧ k ∈ cats) := by
    intro cats
    induction cats with
    | nil => intro gs'; simp
    | cons c cs ihc =>
        intro gs'
        rw [List.foldl_cons, ihc, memGroup_addToGroup, List.mem_cons]
        tauto
  unfold gbc_step
  by_cases hc : ev.categories = []
  · rw [if_neg (by simp [hc]), memGroup_addToGroup]
    constructor
    · rintro (h | ⟨rfl, rfl⟩)
      · exact Or.inl h
      · exact Or.inr ⟨rfl, Or.inr ⟨hc, rfl⟩⟩
    · rintro (h | ⟨rfl, hk | ⟨-, rfl⟩⟩)
      · exact Or.inl h
      · rw [hc] at hk; cases hk
      · exact Or.inr ⟨rfl, rfl⟩
  · rw [if_pos (by simp [hc]), inner]
    constructor
    · rintro (h | ⟨rfl, hk⟩)
      · exact Or.inl h
      · exact Or.inr ⟨rfl, Or.inl hk⟩
    · rintro (h | ⟨rfl, hk | ⟨hnil, -⟩⟩)
      · exact Or.inl h
      · exact Or.inr ⟨rfl, hk⟩
      · exact absurd hnil hc

theorem memGroup_gbp_step (search : String → String → Option String)
    (pattern attr : String) (gs : Groups) (ev : CalendarEvent)
    (k : String) (e : CalendarEvent) :
    memGroup (gbp_step search pattern attr gs ev) k e ↔
      memGroup gs k e ∨
        (e = ev ∧
          firstMatch search pattern (candidates attr ev) = some k) := by
  unfold gbp_step
  by_cases hc : candidates attr ev = []
  · rw [if_neg (by simp [hc]), hc]
    simp [firstMatch]
  · rw [if_pos (by simp [hc])]
    cases hfm : firstMatch search pattern (candidates attr ev) with
    | some m =>
        rw [memGroup_addToGroup]
        constructor
        · rintro (h | ⟨rfl, rfl⟩)
          · exact Or.inl h
          · exact Or.inr ⟨rfl, rfl⟩
        · rintro (h | ⟨rfl, hsome⟩)
          · exact Or.inl h
          · rw [Option.some.injEq] at hsome
            exact Or.inr ⟨hsome.symm, rfl⟩
    | none => simp

theorem gbc_foldl_mem (u : String) (k : String) (e : CalendarEvent)
    (events : List CalendarEvent) :
    ∀ gs : Groups,
      memGroup (events.foldl (gbc_step u) gs) k e ↔
        memGroup gs k e ∨
          (e ∈ events ∧
            (k ∈ e.categories ∨ (e.categories = [] ∧ k = u))) := by
  induction events with
  | nil => intro gs; simp
  | cons ev evs ih =>
      intro gs
      rw [List.foldl_cons, ih, memGroup_gbc_step, List.mem_cons]
      constructor
      · rintro ((h | ⟨rfl, hq⟩) | ⟨hmem, hq⟩)
        · exact Or.inl h
        · exact Or.inr ⟨Or.inl rfl, hq⟩
        · exact Or.inr ⟨Or.inr hmem, hq⟩
      · rintro (h | ⟨rfl | hmem, hq⟩)
        · exact Or.inl (Or.inl h)
        · exact Or.inl (Or.inr ⟨rfl, hq⟩)
        · exact Or.inr ⟨hmem, hq⟩

theorem gbp_foldl_mem (search : String → String → Option String)
    (pattern attr : String) (k : String) (e : CalendarEvent)
    (events : List CalendarEvent) :
    ∀ gs : Groups,
      memGroup (events.foldl (gbp_step search pattern attr) gs) k e ↔
        memGroup gs k e ∨
          (e ∈ events ∧
            firstMatch search pattern (candidates attr e) = some k) := by
  induction events with
  | nil => intro gs; simp
  | cons ev evs ih =>
      intro gs
      rw [List.foldl_cons, ih, memGroup_gbp_step, List.mem_cons]
      constructor
      · rintro ((h | ⟨rfl, hq⟩) | ⟨hmem, hq⟩)
        · exact Or.inl h
        · exact Or.inr ⟨Or.inl rfl, hq⟩
        · exact Or.inr ⟨Or.inr hmem, hq⟩
      · rintro (h | ⟨rfl | hmem, hq⟩)
        · exact Or.inl (Or.inl h)
        · exact Or.inl (Or.inr ⟨rfl, hq⟩)
        · exact Or.inr ⟨hmem, hq⟩

/-! ### Claim C5 -/

/-- C5: `group_by_category` places an event into the group of every one
of its categories, and an event with no categories into exactly the
sentinel group `"---"`: membership of event `e` in group `k` holds
precisely when `e` is in the input and either `k` is one of its
categories or it has none and `k = "---"`. -/
theorem category_grouping_fanout (events : List CalendarEvent)
    (k : String) (e : CalendarEvent) :
    memGroup (group_by_category events "---") k e ↔
      e ∈ events ∧
        (k ∈ e.categories ∨ (e.categories = [] ∧ k = "---")) := by
  rw [group_by_category, gbc_foldl_mem]
  simp [memGroup_nil]

/-! ### Claim C4 -/

/-- C4: `group_by_pattern` scans each event's candidate tokens in order
(`[title]` for attr `title`, the categories for attr `category`), and
the event lands exactly in the group keyed by the matched substring of
the first matching token (`firstMatch`); events with no matching token
are in no group. -/
theorem pattern_grouping_first_match
    (search : String → String → Option String) (events : List CalendarEvent)
    (pattern : String) (k : String) (e : CalendarEvent) :
    (memGroup (group_by_pattern search events pattern "title") k e ↔
       e ∈ events ∧ firstMatch search pattern [e.title] = some k) ∧
    (memGroup (group_by_pattern search events pattern "category") k e ↔
       e ∈ events ∧ firstMatch search pattern e.categories = some k) := by
  constructor
  · rw [group_by_pattern, gbp_foldl_mem,
      show candidates "title" e = [e.title] from by simp [candidates]]
    simp [memGroup_nil]
  · rw [group_by_pattern, gbp_foldl_mem,
      show candidates "category" e = e.categories from by
        simp [candidates]]
    simp [memGroup_nil]

/-! ### Python string splitting -/

theorem toList_append (s t : String) :
    (s ++ t).toList = s.toList ++ t.toList :=
  String.data_append s t

theorem mk_toList (s : String) : String.mk s.toList = s := by
  cases s
  rfl

theorem splitColonAux_ne_nil (l : List Char) : splitColonAux l ≠ [] := by
  cases l with
  | nil => simp [splitColonAux]
  | cons c cs =>
      rw [splitColonAux]
      cases splitColonAux cs with
      | nil => simp
      | cons g gs =>
          dsimp only
          split <;> simp

theorem splitColonAux_no_colon (l : List Char) (h : ':' ∉ l) :
    splitColonAux l = [l] := by
  induction l with
  | nil => rfl
  | cons c cs ih =>
      have h1 : c ≠ ':' := fun hc => h (hc ▸ List.mem_cons_self _ _)
      have h2 : ':' ∉ cs := fun hm => h (List.mem_cons_of_mem _ hm)
      rw [splitColonAux, ih h2]
      dsimp only
      rw [if_neg h1]

theorem splitColonAux_append (l₁ l₂ : List Char) (h : ':' ∉ l₁) :
    splitColonAux (l₁ ++ ':' :: l₂) = l₁ :: splitColonAux l₂ := by
  induction l₁ with
  | nil =>
      rw [List.nil_append, splitColonAux]
      cases hsp : splitColonAux l₂ with
      | nil => exact absurd hsp (splitColonAux_ne_nil l₂)
      | cons g gs =>
          dsimp only
          rw [if_pos rfl]
  | cons c cs ih =>
      have h1 : c ≠ ':' := fun hc => h (hc ▸ List.mem_cons_self _ _)
      have h2 : ':' ∉ cs := fun hm => h (List.mem_cons_of_mem _ hm)
      rw [List.cons_append, splitColonAux, ih h2]
      dsimp only
      rw [if_neg h1]

theorem splitColonAux_length_of_mem (l : List Char) (h : ':' ∈ l) :
    2 ≤ (splitColonAux l).length := by
  induction l with
  | nil => cases h
  | cons c cs ih =>
      rw [splitColonAux]
      cases hsp : splitColonAux cs with
      | nil => exact absurd hsp (splitColonAux_ne_nil cs)
      | cons g gs =>
          dsimp only
          by_cases hc : c = ':'
          · rw [if_pos hc]
            simp
          · rw [if_neg hc]
            have hmem : ':' ∈ cs := by
              rcases List.mem_cons.mp h with h1 | h1
              · exact absurd h1.symm hc
              · exact h1
            have hlen := ih hmem
            rw [hsp] at hlen
            simpa using hlen

theorem isPrefixOf_append_self (l m : List Char) :
    l.isPrefixOf (l ++ m) = true := by
  induction l with
  | nil => simp [List.isPrefixOf]
  | cons a as ih => simp [List.isPrefixOf, ih]

theorem pyStartsWith_title (p : String) :
    pyStartsWith ("title:" ++ p) "title:" = true := by
  rw [pyStartsWith, toList_append]
  exact isPrefixOf_append_self _ _

theorem pyStartsWith_category (p : String) :
    pyStartsWith ("category:" ++ p) "category:" = true := by
  rw [pyStartsWith, toList_append]
  exact isPrefixOf_append_self _ _

theorem not_pyStartsWith_category_title (p : String) :
    pyStartsWith ("title:" ++ p) "category:" = false := by
  rw [pyStartsWith, toList_append]
  rfl

theorem title_ne_category (p : String) : ("title:" ++ p) ≠ "category" := by
  intro h
  have hl := congrArg String.toList h
  rw [toList_append] at hl
  rw [show "title:".toList = 't' :: 'i' :: 't' :: 'l' :: 'e' :: ':' :: []
      from rfl,
    show "category".toList =
      'c' :: 'a' :: 't' :: 'e' :: 'g' :: 'o' :: 'r' :: 'y' :: [] from rfl]
    at hl
  rw [List.cons_append] at hl
  injection hl with h1 _
  exact absurd h1 (by decide)

theorem pySplit_title (p : String) :
    pySplit ("title:" ++ p) =
      "title" :: (splitColonAux p.toList).map String.mk := by
  rw [pySplit, toList_append]
  rw [show "title:".toList ++ p.toList =
      ('t' :: 'i' :: 't' :: 'l' :: 'e' :: []) ++ ':' :: p.toList from rfl]
  rw [splitColonAux_append _ _ (by decide)]
  rfl

theorem pySplit_category (p : String) :
    pySplit ("category:" ++ p) =
      "category" :: (splitColonAux p.toList).map String.mk := by
  rw [pySplit, toList_append]
  rw [show "category:".toList ++ p.toList =
      ('c' :: 'a' :: 't' :: 'e' :: 'g' :: 'o' :: 'r' :: 'y' :: []) ++
        ':' :: p.toList from rfl]
  rw [splitColonAux_append _ _ (by decide)]
  rfl

theorem isEmpty_false_of_ne_nil (events : List CalendarEvent)
    (hne : events ≠ []) : events.isEmpty = false := by
  cases events with
  | nil => exact absurd rfl hne
  | cons a as => rfl

/-! ### Claim C3 -/

/-- C3 counterexample to the claim as stated: the grouping string
`"title:a:b"`, whose regex contains a colon, does not select attribute
`title` with pattern `a:b`; `group_attr.split(':')` yields three parts
and the two-name unpacking raises `ValueError`. -/
theorem colon_split_counterexample :
    group_events (fun _ _ => none) [sampleEvent] "title:a:b" =
      .error .valueError := by decide

/-- C3 (amended): for a grouping string `<attr>:<regex>` whose regex is
non-empty and contains no colon, the prefix selects the attribute and
the suffix is the regex; but when the regex contains one or more
colons, `split(':')` produces more than two parts and `group_events`
raises `ValueError` instead of grouping. -/
theorem colon_split_behavior (search : String → String → Option String)
    (events : List CalendarEvent) (p : String)
    (hne : events ≠ []) (hp : p ≠ "") :
    (':' ∉ p.toList →
        group_events search events ("title:" ++ p) =
          .ok (group_by_pattern search events p "title") ∧
        group_events search events ("category:" ++ p) =
          .ok (group_by_pattern search events p "category")) ∧
    (':' ∈ p.toList →
        group_events search events ("title:" ++ p) =
          .error .valueError ∧
        group_events search events ("category:" ++ p) =
          .error .valueError) := by
  have hEmpty := isEmpty_false_of_ne_nil events hne
  constructor
  · intro hnc
    have hsp : pySplit ("title:" ++ p) = ["title", p] := by
      rw [pySplit_title, splitColonAux_no_colon _ hnc]
      simp [mk_toList]
    have hsc : pySplit ("category:" ++ p) = ["category", p] := by
      rw [pySplit_category, splitColonAux_no_colon _ hnc]
      simp [mk_toList]
    constructor
    · simp [group_events, hEmpty, not_pyStartsWith_category_title p,
        title_ne_category p, pyStartsWith_title p, hsp, hp]
    · simp [group_events, hEmpty, pyStartsWith_category p, hsc, hp]
  · intro hc
    have hlen := splitColonAux_length_of_mem p.toList hc
    cases hsp : splitColonAux p.toList with
    | nil => exact absurd hsp (splitColonAux_ne_nil p.toList)
    | cons a tl =>
        cases tl with
        | nil => rw [hsp] at hlen; simp at hlen
        | cons b rest =>
            have h1 : pySplit ("title:" ++ p) =
                "title" :: String.mk a :: String.mk b ::
                  rest.map String.mk := by
              rw [pySplit_title, hsp]
              rfl
            have h2 : pySplit ("category:" ++ p) =
                "category" :: String.mk a :: String.mk b ::
                  rest.map String.mk := by
              rw [pySplit_category, hsp]
              rfl
            constructor
            · simp [group_events, hEmpty,
                not_pyStartsWith_category_title p, title_ne_category p,
                pyStartsWith_title p, h1]
            · simp [group_events, hEmpty, pyStartsWith_category p, h2]

/-- C3 witness: the amended theorem applied to the colon-free pattern
`"Proj"` and to the colon-containing pattern via `"a:b"`. -/
theorem colon_split_behavior_witness :
    group_events (fun _ _ => none) [sampleEvent] ("title:" ++ "a:b") =
      .error .valueError ∧
    group_events (fun _ _ => none) [sampleEvent] ("category:" ++ "a:b") =
      .error .valueError :=
  (colon_split_behavior (fun _ _ => none) [sampleEvent] "a:b"
    (by decide) (by decide)).2 (by decide)

/-! ### Claim C10 -/

/-- C10: with a non-empty event list, a grouping string `"title:"` or
`"category:"` (empty pattern), or any string that is none of the four
recognized forms, makes `group_events` return the empty mapping without
raising: every event is silently dropped. -/
theorem unrecognized_spec_empty (search : String → String → Option String)
    (events : List CalendarEvent) (attr : String)
    (hne : events ≠ [])
    (h : attr = "title:" ∨ attr = "category:" ∨
         recognizedSpecForm attr = false) :
    group_events search events attr = .ok [] := by
  have hEmpty := isEmpty_false_of_ne_nil events hne
  have htitle : group_events search events "title:" = .ok [] := by
    simp [group_events, hEmpty,
      show pyStartsWith "title:" "category:" = false from by decide,
      show ("title:" : String) ≠ "category" from by decide,
      show pyStartsWith "title:" "title:" = true from by decide,
      show pySplit "title:" = ["title", ""] from by decide]
  have hcat : group_events search events "category:" = .ok [] := by
    simp [group_events, hEmpty,
      show pyStartsWith "category:" "category:" = true from by decide,
      show pySplit "category:" = ["category", ""] from by decide]
  rcases h with rfl | rfl | h
  · exact htitle
  · exact hcat
  · simp only [recognizedSpecForm, Bool.or_eq_false_iff,
      Bool.and_eq_false_iff] at h
    obtain ⟨⟨⟨h1, h2⟩, h3⟩, h4⟩ := h
    rw [beq_eq_false_iff_ne] at h1 h2
    rcases h3 with h3 | h3
    · rcases h4 with h4 | h4
      · simp [group_events, hEmpty, h1, h2, h3, h4]
      · rw [bne_eq_false_iff_eq] at h4
        rw [h4]
        exact htitle
    · rw [bne_eq_false_iff_eq] at h3
      rw [h3]
      exact hcat

/-- C10 witness: an unrecognized grouping string on a non-empty event
list yields the empty mapping. -/
theorem unrecognized_spec_empty_witness :
    group_events (fun _ _ => none) [sampleEvent] "organizer" = .ok [] :=
  unrecognized_spec_empty (fun _ _ => none) [sampleEvent] "organizer"
    (by decide) (Or.inr (Or.inr (by decide)))

end Calcatime
